import Mathlib

/-!
Shallow embedding of the "Items Management" CRUD console
(`src/src/app/page.tsx` of TwoTanawin/loganalyzer-demo-app-fe).

The component keeps six pieces of React state (`items`, `loading`, `error`,
`editingItem`, `showCreateForm`, `newItem`) and exposes four async network
operations (`fetchItems`, `createItem`, `updateItem`, `deleteItem`), each
performing a single `fetch` call, branching on `response.ok`, and reconciling
the state.  Here each operation is a pure function from the current state and
the (externally supplied) HTTP outcome to the new state together with a trace
of the observable actions it performed, in order.  JavaScript `throw` inside
the `try` block is modelled by flowing directly to the `catch` branch and
recording a `throwErr` event.  The `Logger` class is embedded separately,
with `JSON.stringify` modelled on primitive JavaScript values (the only kind
the claims need), including its real behavior of throwing on `BigInt`.
-/

/-- The `Item` interface (page.tsx lines 53–59): optional `id`, required
`name` and `description`, optional `category` and `price`.  JS `number` is
modelled as `Rat`. -/
structure Item where
  id : Option String
  name : String
  description : String
  category : Option String
  price : Option Rat
deriving Repr, DecidableEq

/-- JS truthiness test `!item.id` for `id : string | undefined` (page.tsx
line 181): `undefined` and the empty string are falsy, every other string is
truthy. -/
def idFalsy : Option String → Bool
  | none => true
  | some s => s = ""

/-- The six `useState` cells of `ItemsManagementApp` (page.tsx lines 65–75). -/
structure AppState where
  items : List Item
  loading : Bool
  error : Option String
  editingItem : Option Item
  showCreateForm : Bool
  newItem : Item
deriving Repr, DecidableEq

/-- `API_BASE_URL` (page.tsx line 61) with both environment variables unset,
i.e. the defaults `http://localhost:8080` and `/items`. -/
def apiBaseUrl : String := "http://localhost:8080/items"

/-- The initial draft item `{ name: '', description: '', category: '',
price: 0 }` (page.tsx lines 70–75, also reset to at line 166). -/
def emptyNewItem : Item :=
  { id := none, name := "", description := "", category := some "", price := some 0 }

/-- The component's initial state (page.tsx lines 65–75). -/
def initialState : AppState :=
  { items := [], loading := false, error := none, editingItem := none,
    showCreateForm := false, newItem := emptyNewItem }

/-- Observable actions of one operation, in program order: React state
setters, the HTTP call itself, `response.text()` / `response.json()` on a
given URL, a thrown error reaching the `catch` block, and a `logger.warn`
line. -/
inductive Event where
  | setLoading (b : Bool)
  | setError (e : Option String)
  | httpCall (method : String) (url : String) (body : Option Item)
  | extractText (url : String)
  | parseJson (url : String)
  | setItems (xs : List Item)
  | setEditing (it : Option Item)
  | setShowCreateForm (b : Bool)
  | setNewItem (it : Item)
  | logWarn (msg : String)
  | throwErr (msg : String)
deriving Repr, DecidableEq

/-- The parsed JSON body of a response, abstracted to what the client
inspects: either an array (whose elements the untyped TS code uses directly
as items) or any non-array value (`Array.isArray(data)`, page.tsx line 108). -/
inductive JsonBody where
  | arrayOf (xs : List Item)
  | nonArray
deriving Repr, DecidableEq

/-- One HTTP response: its status code, the body text that `response.text()`
would return, and the result of `response.json()` — `Except.error m` models
the json promise rejecting with an error whose message is `m`. -/
structure HttpResponse where
  status : Nat
  bodyText : String
  json : Except String JsonBody
deriving Repr

/-- `Response.ok` of the fetch API: status in the inclusive range 200–299. -/
def HttpResponse.ok (r : HttpResponse) : Bool :=
  200 ≤ r.status && r.status ≤ 299

/-- Outcome of one `fetch(...)` call: the promise rejects with an error whose
message is `m` (network/transport failure), or resolves to a response. -/
inductive FetchResult where
  | reject (m : String)
  | resp (r : HttpResponse)
deriving Repr

/-- The error message built at page.tsx lines 98, 156, 220 and 271:
`` `HTTP error! status: ${response.status}` ``. -/
def httpErrorMsg (status : Nat) : String :=
  "HTTP error! status: " ++ toString status

/-- Embeds `fetchItems` (page.tsx lines 78–121).  `setLoading(true)` and
`setError(null)`, one GET; on non-OK status it throws the HTTP error at once
(no `response.text()` call); on OK it parses JSON and stores the body if it
is an array, `[]` otherwise; the `catch` block stores the error message and
clears the list; the `finally` block clears `loading`. -/
def fetchItems (st : AppState) (res : FetchResult) : AppState × List Event :=
  let st1 := { st with loading := true, error := none }
  let pre := [Event.setLoading true, Event.setError none,
              Event.httpCall "GET" apiBaseUrl none]
  match res with
  | .reject m =>
      ({ st1 with error := some m, items := [], loading := false },
       pre ++ [Event.setError (some m), Event.setItems [], Event.setLoading false])
  | .resp r =>
      if r.ok then
        match r.json with
        | .error jm =>
            ({ st1 with error := some jm, items := [], loading := false },
             pre ++ [Event.parseJson apiBaseUrl, Event.setError (some jm),
                     Event.setItems [], Event.setLoading false])
        | .ok body =>
            let xs := match body with
              | .arrayOf l => l
              | .nonArray => []
            ({ st1 with items := xs, loading := false },
             pre ++ [Event.parseJson apiBaseUrl, Event.setItems xs,
                     Event.setLoading false])
      else
        let msg := httpErrorMsg r.status
        ({ st1 with error := some msg, items := [], loading := false },
         pre ++ [Event.throwErr msg, Event.setError (some msg),
                 Event.setItems [], Event.setLoading false])

/-- Embeds `createItem` (page.tsx lines 124–177).  `setLoading(true)`, one
POST; on non-OK status it reads `response.text()` then throws the HTTP error;
on OK it parses JSON (a parse rejection lands in `catch`), awaits a full
`fetchItems()` refetch, closes the create form and resets the draft; `catch`
stores the error message; `finally` clears `loading`.  `refetch` is the
outcome of the nested list call. -/
def createItem (st : AppState) (item : Item) (res : FetchResult)
    (refetch : FetchResult) : AppState × List Event :=
  let st1 := { st with loading := true }
  let pre := [Event.setLoading true, Event.httpCall "POST" apiBaseUrl (some item)]
  match res with
  | .reject m =>
      ({ st1 with error := some m, loading := false },
       pre ++ [Event.setError (some m), Event.setLoading false])
  | .resp r =>
      if r.ok then
        match r.json with
        | .error jm =>
            ({ st1 with error := some jm, loading := false },
             pre ++ [Event.parseJson apiBaseUrl, Event.setError (some jm),
                     Event.setLoading false])
        | .ok _ =>
            let fr := fetchItems st1 refetch
            ({ fr.1 with showCreateForm := false, newItem := emptyNewItem,
                         loading := false },
             pre ++ [Event.parseJson apiBaseUrl] ++ fr.2
                 ++ [Event.setShowCreateForm false, Event.setNewItem emptyNewItem,
                     Event.setLoading false])
      else
        let msg := httpErrorMsg r.status
        ({ st1 with error := some msg, loading := false },
         pre ++ [Event.extractText apiBaseUrl, Event.throwErr msg,
                 Event.setError (some msg), Event.setLoading false])

/-- The per-item URL `` `${API_BASE_URL}/${id}` `` (page.tsx lines 193, 248). -/
def itemUrl (id : String) : String :=
  apiBaseUrl ++ "/" ++ id

/-- Embeds `updateItem` (page.tsx lines 180–239).  A falsy `item.id` is
logged with `logger.warn` and the function returns before any request.
Otherwise: `setLoading(true)`, one PUT to `{base}/{id}`; on non-OK status it
reads `response.text()` then throws the HTTP error; on OK it parses JSON,
awaits a full `fetchItems()` refetch and clears `editingItem`; `catch` stores
the error message; `finally` clears `loading`. -/
def updateItem (st : AppState) (item : Item) (res : FetchResult)
    (refetch : FetchResult) : AppState × List Event :=
  if idFalsy item.id then
    (st, [Event.logWarn "Update attempted without item ID"])
  else
    let url := itemUrl (item.id.getD "")
    let st1 := { st with loading := true }
    let pre := [Event.setLoading true, Event.httpCall "PUT" url (some item)]
    match res with
    | .reject m =>
        ({ st1 with error := some m, loading := false },
         pre ++ [Event.setError (some m), Event.setLoading false])
    | .resp r =>
        if r.ok then
          match r.json with
          | .error jm =>
              ({ st1 with error := some jm, loading := false },
               pre ++ [Event.parseJson url, Event.setError (some jm),
                       Event.setLoading false])
          | .ok _ =>
              let fr := fetchItems st1 refetch
              ({ fr.1 with editingItem := none, loading := false },
               pre ++ [Event.parseJson url] ++ fr.2
                   ++ [Event.setEditing none, Event.setLoading false])
        else
          let msg := httpErrorMsg r.status
          ({ st1 with error := some msg, loading := false },
           pre ++ [Event.extractText url, Event.throwErr msg,
                   Event.setError (some msg), Event.setLoading false])

/-- Embeds `deleteItem` (page.tsx lines 242–287).  `setLoading(true)`, one
DELETE to `{base}/{id}`; on non-OK status it reads `response.text()` then
throws the HTTP error; on OK it does NOT call `response.json()` — it goes
straight to the `fetchItems()` refetch; `catch` stores the error message;
`finally` clears `loading`. -/
def deleteItem (st : AppState) (id : String) (res : FetchResult)
    (refetch : FetchResult) : AppState × List Event :=
  let url := itemUrl id
  let st1 := { st with loading := true }
  let pre := [Event.setLoading true, Event.httpCall "DELETE" url none]
  match res with
  | .reject m =>
      ({ st1 with error := some m, loading := false },
       pre ++ [Event.setError (some m), Event.setLoading false])
  | .resp r =>
      if r.ok then
        let fr := fetchItems st1 refetch
        ({ fr.1 with loading := false },
         pre ++ fr.2 ++ [Event.setLoading false])
      else
        let msg := httpErrorMsg r.status
        ({ st1 with error := some msg, loading := false },
         pre ++ [Event.extractText url, Event.throwErr msg,
                 Event.setError (some msg), Event.setLoading false])

/-- The error banner (page.tsx line 338) is rendered exactly when `error` is
non-null. -/
def errorBannerShown (st : AppState) : Bool :=
  st.error.isSome

/-- Model of JS `String.prototype.trim` whitespace on the characters the
claims use. -/
def jsWhitespace (c : Char) : Bool :=
  c = ' ' || c = '\t' || c = '\n' || c = '\r'

/-- Model of JS `String.prototype.trim`: strip leading and trailing
whitespace. -/
def jsTrim (s : String) : String :=
  ⟨((s.data.dropWhile jsWhitespace).reverse.dropWhile jsWhitespace).reverse⟩

/-- The Create button's `disabled` condition `loading || !newItem.name.trim()`
(page.tsx line 407): JS `!s` on a string is true exactly for the empty
string, so the button is enabled only when the trimmed draft name is
nonempty. -/
def createButtonDisabled (st : AppState) : Bool :=
  st.loading || jsTrim st.newItem.name = ""

/-- The edit form's Save button `disabled` condition (page.tsx line 491):
just `loading` — it has no name check. -/
def saveButtonDisabled (st : AppState) : Bool :=
  st.loading

/-- Clicking the Create button (page.tsx line 406): a disabled button fires
no handler; otherwise it runs `createItem(newItem)`. -/
def clickCreate (st : AppState) (res refetch : FetchResult) :
    AppState × List Event :=
  if createButtonDisabled st then (st, [])
  else createItem st st.newItem res refetch

/-- Clicking the edit form's Save button (page.tsx line 490): the form is
rendered only while `editingItem` is non-null; a disabled button fires no
handler; otherwise it runs `updateItem(editingItem)`. -/
def clickSave (st : AppState) (res refetch : FetchResult) :
    AppState × List Event :=
  match st.editingItem with
  | none => (st, [])
  | some it =>
      if saveButtonDisabled st then (st, [])
      else updateItem st it res refetch

/-- Value of a nonempty all-digit character run, `none` otherwise. -/
def digitsValAux : List Char → Nat → Option Nat
  | [], acc => some acc
  | c :: cs, acc =>
      let n := c.toNat
      if 48 ≤ n && n ≤ 57 then digitsValAux cs (acc * 10 + (n - 48))
      else none

/-- Value of a digit run; the empty run is not a number. -/
def digitsVal : List Char → Option Nat
  | [] => none
  | c :: cs => digitsValAux (c :: cs) 0

/-- Model of the JavaScript `parseFloat` builtin restricted to the inputs the
claims need: an unsigned decimal literal (`digits` or `digits.digits`)
evaluates to its value; every other character list maps to `none`, modelling
a `NaN` result. -/
def parseDecimalChars (cs : List Char) : Option Rat :=
  let whole := cs.takeWhile (fun c => !(c = '.'))
  match cs.dropWhile (fun c => !(c = '.')) with
  | [] => (digitsVal whole).map fun n => (n : Rat)
  | _ :: frac =>
      match digitsVal whole, digitsVal frac with
      | some n, some m => some ((n : Rat) + (m : Rat) / ((10 : Rat) ^ frac.length))
      | _, _ => none

/-- Model of `parseFloat` including an optional leading minus sign: a leading
`-` negates the parsed decimal, as in JS. -/
def parseFloat (s : String) : Option Rat :=
  match s.data with
  | '-' :: rest => (parseDecimalChars rest).map fun q => -q
  | cs => parseDecimalChars cs

/-- The price input handlers (page.tsx lines 388 and 474) store
`parseFloat(e.target.value) || 0`: by JS truthiness a `NaN` or zero parse
result yields `0`; any other number — negative included — is kept as is. -/
def priceFromInput (s : String) : Rat :=
  match parseFloat s with
  | none => 0
  | some q => if q = 0 then 0 else q

/-- The create form's price `onChange` (page.tsx line 388):
`setNewItem({ ...newItem, price: parseFloat(e.target.value) || 0 })`. -/
def setNewItemPrice (st : AppState) (input : String) : AppState :=
  { st with newItem := { st.newItem with price := some (priceFromInput input) } }

/-- The edit form's price `onChange` (page.tsx line 474):
`setEditingItem({ ...editingItem, price: parseFloat(e.target.value) || 0 })`. -/
def setEditingPrice (st : AppState) (input : String) : AppState :=
  match st.editingItem with
  | none => st
  | some it =>
      { st with editingItem := some { it with price := some (priceFromInput input) } }

/-- A primitive JavaScript runtime value passed as logging context: the
fragment of values the logger claims need.  `vbigint` is the
serialization-hostile case — `JSON.stringify` throws a `TypeError` on a
BigInt. -/
inductive JsValue where
  | vstr (s : String)
  | vnum (q : Rat)
  | vbool (b : Bool)
  | vnull
  | vbigint (n : Int)
deriving Repr, DecidableEq

/-- Whether `JSON.stringify` serializes the value without throwing. -/
def serializable : JsValue → Bool
  | .vbigint _ => false
  | _ => true

/-- Model of `JSON.stringify` on one primitive value; a BigInt makes it throw
(`Except.error` carries the TypeError message).  String escaping is not
modelled; no claim depends on the exact serialized text. -/
def stringifyOne : JsValue → Except String String
  | .vstr s => .ok ("\"" ++ s ++ "\"")
  | .vnum q => .ok (toString q)
  | .vbool b => .ok (if b then "true" else "false")
  | .vnull => .ok "null"
  | .vbigint _ => .error "Do not know how to serialize a BigInt"

/-- Model of `JSON.stringify(args)` for the rest-argument array of a logger
call: each element is serialized; one hostile element makes the whole call
throw, exactly as in JS. -/
def stringifyArgs (args : List JsValue) : Except String String :=
  (args.mapM stringifyOne).map fun parts =>
    "[" ++ String.intercalate "," parts ++ "]"

/-- Embeds `Logger.formatMessage` (page.tsx lines 14–18); the timestamp and
the logger's `className` are parameters.  `JSON.stringify(args)` is called
unguarded whenever `args` is nonempty, so a serialization failure propagates
out of the call (`Except.error`). -/
def formatMessage (timestamp className level message : String)
    (args : List JsValue) : Except String String :=
  match args with
  | [] => .ok ("[" ++ timestamp ++ "] " ++ level ++ " " ++ className
                ++ " - " ++ message)
  | _ => (stringifyArgs args).map fun j =>
      "[" ++ timestamp ++ "] " ++ level ++ " " ++ className ++ " - " ++ message
        ++ " | Args: " ++ j

/-- Embeds `Logger.info` (page.tsx lines 20–22): the emitted console line, or
`Except.error` when formatting throws. -/
def loggerInfo (timestamp className message : String) (args : List JsValue) :
    Except String String :=
  formatMessage timestamp className "INFO" message args

/-- Embeds `Logger.warn` (page.tsx lines 30–32). -/
def loggerWarn (timestamp className message : String) (args : List JsValue) :
    Except String String :=
  formatMessage timestamp className "WARN" message args

/-- Embeds `Logger.error` (page.tsx lines 34–37): the optional failure object
is its `(message, stack)` pair, appended after the formatted line. -/
def loggerError (timestamp className message : String)
    (err : Option (String × String)) (args : List JsValue) :
    Except String String :=
  (formatMessage timestamp className "ERROR" message args).map fun line =>
    line ++ (match err with
              | some p => " | Error: " ++ p.1 ++ " | Stack: " ++ p.2
              | none => "")

/-- Embeds `Logger.debug` (page.tsx lines 24–28): a no-op (output `none`)
unless `NODE_ENV === 'development'`. -/
def loggerDebug (isDev : Bool) (timestamp className message : String)
    (args : List JsValue) : Except String (Option String) :=
  if isDev then (formatMessage timestamp className "DEBUG" message args).map some
  else .ok none

/-- Embeds `Logger.trace` (page.tsx lines 39–43): a no-op (output `none`)
unless `NODE_ENV === 'development'`. -/
def loggerTrace (isDev : Bool) (timestamp className message : String)
    (args : List JsValue) : Except String (Option String) :=
  if isDev then (formatMessage timestamp className "TRACE" message args).map some
  else .ok none

/-- Whether an `Except` result is a normal return (the call did not throw). -/
def exceptOk {ε α : Type} : Except ε α → Bool
  | .ok _ => true
  | .error _ => false

def isSetLoadingTrue : Event → Bool
  | .setLoading true => true
  | _ => false

def isSetLoadingFalse : Event → Bool
  | .setLoading false => true
  | _ => false

def isSetErrorNone : Event → Bool
  | .setError none => true
  | _ => false

def isHttpCall : Event → Bool
  | .httpCall _ _ _ => true
  | _ => false

/-- An HTTP call with the given method. -/
def isMethodCall (method : String) : Event → Bool
  | .httpCall m _ _ => m == method
  | _ => false

/-- An HTTP call with the given method carrying the given body. -/
def isCallWithBody (method : String) (body : Option Item) : Event → Bool
  | .httpCall m _ b => m == method && b == body
  | _ => false

def isExtractText : Event → Bool
  | .extractText _ => true
  | _ => false

/-- A `response.text()` read on the given URL. -/
def isExtractTextOf (url : String) : Event → Bool
  | .extractText u => u == url
  | _ => false

/-- A `response.json()` parse on the given URL. -/
def isParseJsonOf (url : String) : Event → Bool
  | .parseJson u => u == url
  | _ => false

/-- A thrown error carrying the given message. -/
def isThrowOf (msg : String) : Event → Bool
  | .throwErr m => m == msg
  | _ => false

def isLogWarn : Event → Bool
  | .logWarn _ => true
  | _ => false

/-- `p` occurs strictly before the first `q` in the trace (and both occur). -/
def seqBefore (p q : Event → Bool) : List Event → Bool
  | [] => false
  | e :: rest =>
      if p e then rest.any q
      else if q e then false
      else seqBefore p q rest

/-- The "shared shape" of one operation, relative to the operation's own URL
`url` and its HTTP outcome `res`: `loading` is set to `true` before the HTTP
call; the prior error is cleared before the call exactly when `clearsError`
holds; on a non-success status the operation reads its response body text
(required only when `needsText` holds) and throws the
`HTTP error! status: N` failure; on a success status it parses the JSON body
of its own response (required only when `needsParse` holds); and `loading`
is `false` afterwards regardless of outcome, via a `setLoading false`. -/
def opShape (clearsError needsText needsParse : Bool) (url : String)
    (out : AppState × List Event) (res : FetchResult) : Bool :=
  seqBefore isSetLoadingTrue isHttpCall out.2 &&
  (clearsError == seqBefore isSetErrorNone isHttpCall out.2) &&
  (!out.1.loading) &&
  out.2.any isSetLoadingFalse &&
  (match res with
   | .reject _ => true
   | .resp r =>
       if r.ok then !needsParse || out.2.any (isParseJsonOf url)
       else (!needsText || out.2.any (isExtractTextOf url)) &&
            out.2.any (isThrowOf (httpErrorMsg r.status)))

/-- Every variant of the list operation emits its GET call. -/
theorem fetch_has_get (st : AppState) (res : FetchResult) :
    (fetchItems st res).2.any (isMethodCall "GET") = true := by
  cases res with
  | reject m => simp [fetchItems, isMethodCall]
  | resp r =>
      cases hok : r.ok with
      | true =>
          cases hj : r.json with
          | error jm => simp [fetchItems, hok, hj, isMethodCall]
          | ok body => simp [fetchItems, hok, hj, isMethodCall]
      | false => simp [fetchItems, hok, isMethodCall]

def isSetEditingNone : Event → Bool
  | .setEditing none => true
  | _ => false

def isThrow : Event → Bool
  | .throwErr _ => true
  | _ => false

/-- The list operation never touches `editingItem`. -/
theorem fetch_no_editing_event (st : AppState) (res : FetchResult) :
    (fetchItems st res).2.any isSetEditingNone = false := by
  cases res with
  | reject m => simp [fetchItems, isSetEditingNone]
  | resp r =>
      cases hok : r.ok with
      | true =>
          cases hj : r.json with
          | error jm => simp [fetchItems, hok, hj, isSetEditingNone]
          | ok body => simp [fetchItems, hok, hj, isSetEditingNone]
      | false => simp [fetchItems, hok, isSetEditingNone]

/-- An occurrence of `p` in `xs` precedes every `q`-event contributed by
`ys` as long as `xs` itself has no `q`-event. -/
theorem seqBefore_of_split (p q : Event → Bool) (xs ys : List Event)
    (hp : xs.any p = true) (hq : xs.any q = false) (hy : ys.any q = true) :
    seqBefore p q (xs ++ ys) = true := by
  induction xs with
  | nil => simp at hp
  | cons e es ih =>
      rw [List.any_cons] at hp hq
      rw [Bool.or_eq_true] at hp
      rw [Bool.or_eq_false_iff] at hq
      obtain ⟨hqe, hqes⟩ := hq
      by_cases hpe : p e = true
      · simp [seqBefore, hpe, List.any_append, hy]
      · have hpes : es.any p = true := by
          rcases hp with h1 | h1
          · exact absurd h1 hpe
          · exact h1
        simp [seqBefore, hpe, hqe, ih hpes hqes]

/-- The list operation satisfies the shared shape with `clearsError` and
JSON parsing but WITHOUT reading the response body text on failure. -/
theorem fetch_shape (st : AppState) (res : FetchResult) :
    opShape true false true apiBaseUrl (fetchItems st res) res = true := by
  cases res with
  | reject m =>
      simp [fetchItems, opShape, seqBefore, isSetLoadingTrue, isHttpCall,
            isSetErrorNone, isSetLoadingFalse]
  | resp r =>
      cases hok : r.ok with
      | true =>
          cases hj : r.json with
          | error jm =>
              simp [fetchItems, opShape, seqBefore, hok, hj, isSetLoadingTrue,
                    isHttpCall, isSetErrorNone, isSetLoadingFalse, isParseJsonOf]
          | ok body =>
              simp [fetchItems, opShape, seqBefore, hok, hj, isSetLoadingTrue,
                    isHttpCall, isSetErrorNone, isSetLoadingFalse, isParseJsonOf]
      | false =>
          simp [fetchItems, opShape, seqBefore, hok, isSetLoadingTrue,
                isHttpCall, isSetErrorNone, isSetLoadingFalse, isThrowOf,
                isExtractTextOf]

/-- The list operation performs no `response.text()` read in any branch. -/
theorem fetch_no_text (st : AppState) (res : FetchResult) :
    (fetchItems st res).2.all (fun e => !isExtractText e) = true := by
  cases res with
  | reject m => simp [fetchItems, isExtractText]
  | resp r =>
      cases hok : r.ok with
      | true =>
          cases hj : r.json with
          | error jm => simp [fetchItems, hok, hj, isExtractText]
          | ok body => simp [fetchItems, hok, hj, isExtractText]
      | false => simp [fetchItems, hok, isExtractText]

/-- The create operation satisfies the full shared shape, without clearing
the prior error before its call. -/
theorem create_shape (st : AppState) (item : Item) (res refetch : FetchResult) :
    opShape false true true apiBaseUrl (createItem st item res refetch) res
      = true := by
  cases res with
  | reject m =>
      simp [createItem, opShape, seqBefore, isSetLoadingTrue, isHttpCall,
            isSetErrorNone, isSetLoadingFalse]
  | resp r =>
      cases hok : r.ok with
      | true =>
          cases hj : r.json with
          | error jm =>
              simp [createItem, opShape, seqBefore, hok, hj, isSetLoadingTrue,
                    isHttpCall, isSetErrorNone, isSetLoadingFalse, isParseJsonOf]
          | ok body =>
              simp [createItem, opShape, seqBefore, hok, hj, isSetLoadingTrue,
                    isHttpCall, isSetErrorNone, isSetLoadingFalse, isParseJsonOf]
      | false =>
          simp [createItem, opShape, seqBefore, hok, isSetLoadingTrue,
                isHttpCall, isSetErrorNone, isSetLoadingFalse, isThrowOf,
                isExtractTextOf]

/-- The update operation, once past the id guard, satisfies the full shared
shape, without clearing the prior error before its call. -/
theorem update_shape (st : AppState) (item : Item) (res refetch : FetchResult)
    (h : idFalsy item.id = false) :
    opShape false true true (itemUrl (item.id.getD ""))
      (updateItem st item res refetch) res = true := by
  cases res with
  | reject m =>
      simp [updateItem, h, opShape, seqBefore, isSetLoadingTrue, isHttpCall,
            isSetErrorNone, isSetLoadingFalse]
  | resp r =>
      cases hok : r.ok with
      | true =>
          cases hj : r.json with
          | error jm =>
              simp [updateItem, h, opShape, seqBefore, hok, hj, isSetLoadingTrue,
                    isHttpCall, isSetErrorNone, isSetLoadingFalse, isParseJsonOf]
          | ok body =>
              simp [updateItem, h, opShape, seqBefore, hok, hj, isSetLoadingTrue,
                    isHttpCall, isSetErrorNone, isSetLoadingFalse, isParseJsonOf]
      | false =>
          simp [updateItem, h, opShape, seqBefore, hok, isSetLoadingTrue,
                isHttpCall, isSetErrorNone, isSetLoadingFalse, isThrowOf,
                isExtractTextOf]

/-- The delete operation satisfies the shared shape WITHOUT a JSON parse
requirement on success and without clearing the prior error. -/
theorem delete_shape (st : AppState) (id : String) (res refetch : FetchResult) :
    opShape false true false (itemUrl id) (deleteItem st id res refetch) res
      = true := by
  cases res with
  | reject m =>
      simp [deleteItem, opShape, seqBefore, isSetLoadingTrue, isHttpCall,
            isSetErrorNone, isSetLoadingFalse]
  | resp r =>
      cases hok : r.ok with
      | true =>
          simp [deleteItem, opShape, seqBefore, hok, isSetLoadingTrue,
                isHttpCall, isSetErrorNone, isSetLoadingFalse]
      | false =>
          simp [deleteItem, opShape, seqBefore, hok, isSetLoadingTrue,
                isHttpCall, isSetErrorNone, isSetLoadingFalse, isThrowOf,
                isExtractTextOf]

/-- The collection URL differs from every per-item URL. -/
theorem base_ne_itemUrl (id : String) : (apiBaseUrl == itemUrl id) = false := by
  rw [beq_eq_false_iff_ne]
  intro h
  have hl : apiBaseUrl.length = (itemUrl id).length := by rw [h]
  rw [itemUrl, String.length_append, String.length_append] at hl
  have h1 : apiBaseUrl.length = 27 := by decide
  have h2 : "/".length = 1 := by decide
  omega

/-- The list operation never parses JSON on a URL other than the collection
URL. -/
theorem fetch_no_parse_of (st : AppState) (res : FetchResult) (u : String)
    (hu : (apiBaseUrl == u) = false) :
    (fetchItems st res).2.all (fun e => !isParseJsonOf u e) = true := by
  cases res with
  | reject m => simp [fetchItems, isParseJsonOf]
  | resp r =>
      cases hok : r.ok with
      | true =>
          cases hj : r.json with
          | error jm => simp [fetchItems, hok, hj, isParseJsonOf, hu]
          | ok body => simp [fetchItems, hok, hj, isParseJsonOf, hu]
      | false => simp [fetchItems, hok, isParseJsonOf]

/-- The delete operation never parses the JSON body of its own response. -/
theorem delete_no_parse (st : AppState) (id : String) (res refetch : FetchResult) :
    (deleteItem st id res refetch).2.all
      (fun e => !isParseJsonOf (itemUrl id) e) = true := by
  cases res with
  | reject m => simp [deleteItem, isParseJsonOf]
  | resp r =>
      cases hok : r.ok with
      | true =>
          have hf := fetch_no_parse_of { st with loading := true } refetch
            (itemUrl id) (base_ne_itemUrl id)
          simp [deleteItem, hok, isParseJsonOf, List.all_append] at hf ⊢
          exact fun e he => hf e he
      | false => simp [deleteItem, hok, isParseJsonOf]

/-- A 500 response whose body is not valid JSON. -/
def resp500 : HttpResponse :=
  { status := 500, bodyText := "boom", json := .error "bad json" }

/-- A 200 response carrying an empty JSON array. -/
def resp200 : HttpResponse :=
  { status := 200, bodyText := "[]", json := .ok (.arrayOf []) }

/-- A 404 response whose body is not valid JSON. -/
def resp404 : HttpResponse :=
  { status := 404, bodyText := "not found", json := .error "bad json" }

/-- A 200 response whose JSON body parses to a non-array value. -/
def respNonArray : HttpResponse :=
  { status := 200, bodyText := "{}", json := .ok .nonArray }

/-- A persisted sample item with a server-assigned id. -/
def sampleItem : Item :=
  { id := some "1", name := "Widget", description := "A widget",
    category := some "tools", price := some 0 }

/-- Claim C1, counterexample: read literally, the shared operation shape
fails twice on the code — the list operation completing with status 500
never reads the response body text before failing, and the delete operation
completing successfully never parses the JSON body of its own response
(its trace holds no parse event for its per-item URL). -/
theorem C1_sharedShape_counterexample :
    opShape true true true apiBaseUrl
      (fetchItems initialState (.resp resp500)) (.resp resp500) = false ∧
    opShape false true true (itemUrl "1")
      (deleteItem initialState "1" (.resp resp200) (.resp resp200))
      (.resp resp200) = false :=
  ⟨by decide, by decide⟩

/-- Claim C1, amended: once an operation proceeds to its HTTP call it sets
`loading` to `true` before the call, fails with the
`HTTP error! status: N` error on a non-success status, ends with `loading`
false in every outcome, and only the list operation clears the prior error
before its call — but the response body text is read on failure only by
create, update and delete (the list operation throws at once without
reading it), and the JSON body of the operation's own response is parsed on
success only by list, create and update (delete goes straight to the
refetch). -/
theorem C1_sharedShape_amended (st : AppState) (item : Item) (id : String)
    (res refetch : FetchResult) (h : idFalsy item.id = false) :
    opShape true false true apiBaseUrl (fetchItems st res) res = true ∧
    (fetchItems st res).2.all (fun e => !isExtractText e) = true ∧
    opShape false true true apiBaseUrl (createItem st item res refetch) res
      = true ∧
    opShape false true true (itemUrl (item.id.getD ""))
      (updateItem st item res refetch) res = true ∧
    opShape false true false (itemUrl id) (deleteItem st id res refetch) res
      = true ∧
    (deleteItem st id res refetch).2.all
      (fun e => !isParseJsonOf (itemUrl id) e) = true :=
  ⟨fetch_shape st res, fetch_no_text st res, create_shape st item res refetch,
   update_shape st item res refetch h, delete_shape st id res refetch,
   delete_no_parse st id res refetch⟩

/-- Claim C1, witness: the amended shape at a concrete state, item and
response. -/
theorem C1_sharedShape_amended_witness :
    idFalsy sampleItem.id = false ∧
    opShape true false true apiBaseUrl
      (fetchItems initialState (.resp resp500)) (.resp resp500) = true :=
  ⟨rfl, (C1_sharedShape_amended initialState sampleItem "1" (.resp resp500)
      (.resp resp500) rfl).1⟩

/-- Claim C2: updating an item whose id is undefined or empty performs no
HTTP call of any kind, leaves the whole state — the in-memory item list
included — unchanged, and logs a warning instead of sending the request. -/
theorem C2_update_without_id (st : AppState) (item : Item)
    (res refetch : FetchResult) (h : idFalsy item.id = true) :
    (updateItem st item res refetch).1 = st ∧
    (updateItem st item res refetch).2.any isHttpCall = false ∧
    (updateItem st item res refetch).2.any isLogWarn = true := by
  refine ⟨?_, ?_, ?_⟩ <;> simp [updateItem, h, isHttpCall, isLogWarn]

/-- Claim C2, witness: the id-less draft item is skipped at a concrete
state and response. -/
theorem C2_update_without_id_witness :
    idFalsy emptyNewItem.id = true ∧
    (updateItem initialState emptyNewItem (.resp resp500) (.resp resp500)).1
      = initialState :=
  ⟨rfl, (C2_update_without_id initialState emptyNewItem (.resp resp500)
      (.resp resp500) rfl).1⟩

/-- Claim C3: a list call completing with a non-success HTTP status N sets
the user-visible error to exactly the generic message
`HTTP error! status: N` — so for status 500 the message contains “500” —
shows the error banner, and empties the in-memory item list. -/
theorem C3_fetch_http_error (st : AppState) (r : HttpResponse)
    (h : r.ok = false) :
    (fetchItems st (.resp r)).1.error
        = some ("HTTP error! status: " ++ toString r.status) ∧
    errorBannerShown (fetchItems st (.resp r)).1 = true ∧
    (fetchItems st (.resp r)).1.items = [] := by
  refine ⟨?_, ?_, ?_⟩ <;> simp [fetchItems, h, httpErrorMsg, errorBannerShown]

/-- Claim C3, witness: at status 500 the stored message is the literal
string `HTTP error! status: 500`, which contains `500`. -/
theorem C3_fetch_http_error_witness :
    resp500.ok = false ∧
    (fetchItems initialState (.resp resp500)).1.error
      = some "HTTP error! status: 500" :=
  ⟨rfl, ((C3_fetch_http_error initialState resp500 rfl).1).trans (by decide)⟩

/-- Claim C4: on a successful list response whose parsed JSON body is not an
array, the in-memory item list becomes empty and nothing is thrown — the
trace carries no throw event and the operation ends with no error; when the
body parses to an array, the list is replaced by exactly that array. -/
theorem C4_fetch_body (st : AppState) (r : HttpResponse) (xs : List Item)
    (h : r.ok = true) :
    (r.json = .ok .nonArray →
        (fetchItems st (.resp r)).1.items = [] ∧
        (fetchItems st (.resp r)).1.error = none ∧
        (fetchItems st (.resp r)).2.all (fun e => !isThrow e) = true) ∧
    (r.json = .ok (.arrayOf xs) →
        (fetchItems st (.resp r)).1.items = xs) := by
  constructor
  · intro hj
    refine ⟨?_, ?_, ?_⟩ <;> simp [fetchItems, h, hj, isThrow]
  · intro hj
    simp [fetchItems, h, hj]

/-- Claim C4, witness: a concrete 200 response with a non-array JSON body
leaves the list empty. -/
theorem C4_fetch_body_witness :
    respNonArray.ok = true ∧
    (fetchItems initialState (.resp respNonArray)).1.items = [] :=
  ⟨rfl, ((C4_fetch_body initialState respNonArray [] rfl).1 rfl).1⟩

/-- Claim C5: a delete call completing with a non-success HTTP status leaves
the in-memory item list unchanged, sets and surfaces the error message via
the banner, and performs no list refetch — no GET call appears in its
trace; the refetch (a GET) happens exactly on the success path. -/
theorem C5_delete_failure (st : AppState) (id : String)
    (refetch : FetchResult) (r : HttpResponse) :
    (r.ok = false →
        (deleteItem st id (.resp r) refetch).1.items = st.items ∧
        (deleteItem st id (.resp r) refetch).1.error
          = some (httpErrorMsg r.status) ∧
        errorBannerShown (deleteItem st id (.resp r) refetch).1 = true ∧
        (deleteItem st id (.resp r) refetch).2.any (isMethodCall "GET")
          = false) ∧
    (r.ok = true →
        (deleteItem st id (.resp r) refetch).2.any (isMethodCall "GET")
          = true) := by
  constructor
  · intro h
    refine ⟨?_, ?_, ?_, ?_⟩ <;>
      simp [deleteItem, h, errorBannerShown, isMethodCall,
            (by decide : ("DELETE" == "GET") = false)]
  · intro h
    simp [deleteItem, h, isMethodCall, List.any_append,
          (by decide : ("DELETE" == "GET") = false),
          fetch_has_get { st with loading := true } refetch]

/-- Claim C5, witness: deleting id `abc` against a concrete 404 leaves the
list unchanged. -/
theorem C5_delete_failure_witness :
    resp404.ok = false ∧
    (deleteItem initialState "abc" (.resp resp404) (.resp resp200)).1.items
      = initialState.items :=
  ⟨rfl, ((C5_delete_failure initialState "abc" (.resp resp200) resp404).1
      rfl).1⟩

/-- Every element of a context list made only of serializable values maps to
a serialized string. -/
theorem mapM_stringify_ok (args : List JsValue)
    (h : ∀ a ∈ args, serializable a = true) :
    ∃ l, args.mapM stringifyOne = .ok l := by
  induction args with
  | nil => exact ⟨[], rfl⟩
  | cons a as ih =>
      obtain ⟨l, hl⟩ := ih fun x hx => h x (List.mem_cons_of_mem _ hx)
      have ha : serializable a = true := h a (List.mem_cons_self _ _)
      obtain ⟨s, hs⟩ : ∃ s, stringifyOne a = .ok s := by
        cases a with
        | vbigint n => simp [serializable] at ha
        | vstr s => exact ⟨_, rfl⟩
        | vnum q => exact ⟨_, rfl⟩
        | vbool b => exact ⟨_, rfl⟩
        | vnull => exact ⟨_, rfl⟩
      rw [List.mapM_cons, hs, hl]
      exact ⟨s :: l, rfl⟩

/-- Mapping over an `Except` keeps the thrown-or-not status. -/
theorem exceptOk_map {ε α β : Type} (f : α → β) (x : Except ε α) :
    exceptOk (x.map f) = exceptOk x := by
  cases x <;> rfl

/-- Serializing a context list of serializable values does not throw. -/
theorem stringifyArgs_ok (args : List JsValue)
    (h : ∀ a ∈ args, serializable a = true) :
    ∃ s, stringifyArgs args = .ok s := by
  obtain ⟨l, hl⟩ := mapM_stringify_ok args h
  unfold stringifyArgs
  rw [hl]
  exact ⟨_, rfl⟩

/-- Formatting with serializable context values does not throw. -/
theorem formatMessage_ok (timestamp className level message : String)
    (args : List JsValue) (h : ∀ a ∈ args, serializable a = true) :
    exceptOk (formatMessage timestamp className level message args) = true := by
  cases args with
  | nil => rfl
  | cons a as =>
      obtain ⟨s, hs⟩ := stringifyArgs_ok (a :: as) h
      simp only [formatMessage]
      rw [hs]
      rfl

/-- Claim C6, counterexample: a logger call CAN throw — `Logger.info` with a
BigInt context value propagates the `JSON.stringify` failure out of the
call, because the stringify call in `formatMessage` is unguarded; no
degradation to omitting the unparsable context exists. -/
theorem C6_logger_throw_counterexample :
    loggerInfo "2025-01-01T00:00:00.000Z" "ItemsManagementApp" "hello"
      [JsValue.vbigint 1]
      = .error "Do not know how to serialize a BigInt" := rfl

/-- Claim C6, amended: a logger call never throws PROVIDED every context
value is JSON-serializable — info, warn and error (with any attached
failure object) then return their formatted line, and debug and trace never
throw in either runtime mode; with an unserializable context value the
serialization failure propagates out of the call instead of being
omitted. -/
theorem C6_logger_amended (timestamp className message : String)
    (err : Option (String × String)) (isDev : Bool) (args : List JsValue)
    (h : ∀ a ∈ args, serializable a = true) :
    exceptOk (loggerInfo timestamp className message args) = true ∧
    exceptOk (loggerWarn timestamp className message args) = true ∧
    exceptOk (loggerError timestamp className message err args) = true ∧
    exceptOk (loggerDebug isDev timestamp className message args) = true ∧
    exceptOk (loggerTrace isDev timestamp className message args) = true := by
  have hf : ∀ level, exceptOk
      (formatMessage timestamp className level message args) = true :=
    fun level => formatMessage_ok timestamp className level message args h
  refine ⟨hf "INFO", hf "WARN", ?_, ?_, ?_⟩
  · unfold loggerError
    rw [exceptOk_map]
    exact hf "ERROR"
  · cases isDev with
    | true => simp [loggerDebug, exceptOk_map, hf "DEBUG"]
    | false => rfl
  · cases isDev with
    | true => simp [loggerTrace, exceptOk_map, hf "TRACE"]
    | false => rfl

/-- Claim C6, witness: a concrete info call with a serializable string
context value returns normally. -/
theorem C6_logger_amended_witness :
    (∀ a ∈ [JsValue.vstr "ctx"], serializable a = true) ∧
    exceptOk (loggerInfo "t" "C" "m" [JsValue.vstr "ctx"]) = true :=
  ⟨by decide, (C6_logger_amended "t" "C" "m" none true [JsValue.vstr "ctx"]
      (by decide)).1⟩

/-- A held item whose name is whitespace-only but whose id is set. -/
def wsNameItem : Item :=
  { id := some "1", name := "   ", description := "d", category := none,
    price := none }

/-- The state in which the edit form holds `wsNameItem` and nothing is
loading. -/
def wsEditState : AppState :=
  { initialState with editingItem := some wsNameItem }

/-- Claim C7, counterexample: clicking Save on an edited item whose name is
all whitespace DOES send a PUT request carrying that item — the enabled
Save button checks only `loading`, and `updateItem` checks only the id, so
a whitespace-named item is persisted. -/
theorem C7_persist_guard_counterexample :
    jsTrim wsNameItem.name = "" ∧
    (clickSave wsEditState (.resp resp200) (.resp resp200)).2.any
      (isCallWithBody "PUT" (some wsNameItem)) = true :=
  ⟨by decide, by decide⟩

/-- Claim C7, amended: only the create path enforces the name invariant —
while the draft name trims to the empty string the Create button is
disabled and clicking it does nothing — whereas the update path has no name
guard: `updateItem` sends its PUT whenever the item id is truthy, whatever
the name. -/
theorem C7_persist_guard_amended (st : AppState) (item : Item)
    (res refetch : FetchResult) (h : jsTrim st.newItem.name = "") :
    createButtonDisabled st = true ∧
    clickCreate st res refetch = (st, []) ∧
    (idFalsy item.id = false →
      (updateItem st item res refetch).2.any
        (isCallWithBody "PUT" (some item)) = true) := by
  refine ⟨?_, ?_, ?_⟩
  · simp [createButtonDisabled, h]
  · simp [clickCreate, createButtonDisabled, h]
  · intro hid
    cases res with
    | reject m => simp [updateItem, hid, isCallWithBody]
    | resp r =>
        cases hok : r.ok with
        | true =>
            cases hj : r.json with
            | error jm => simp [updateItem, hid, hok, hj, isCallWithBody]
            | ok body => simp [updateItem, hid, hok, hj, isCallWithBody]
        | false => simp [updateItem, hid, hok, isCallWithBody]

/-- Claim C7, witness: with the initial empty draft name the Create button
is disabled. -/
theorem C7_persist_guard_amended_witness :
    jsTrim initialState.newItem.name = "" ∧
    createButtonDisabled initialState = true :=
  ⟨by decide, (C7_persist_guard_amended initialState wsNameItem (.resp resp200)
      (.resp resp200) (by decide)).1⟩

/-- Claim C8, counterexample: typing `-5` into the create form price input
stores the negative price −5 — the handler keeps any parsed number,
negative included, so the non-negativity invariant fails. -/
theorem C8_price_counterexample :
    (setNewItemPrice initialState "-5").newItem.price = some (-5) ∧
    ¬ ((0 : Rat) ≤ -5) :=
  ⟨by decide, by decide⟩

/-- Claim C8, amended: the price defaults to 0 — the initial and reset
drafts carry price 0, and both price handlers store 0 whenever the entered
text does not parse as a number — but non-negativity is NOT enforced: each
handler stores exactly the JS value of `parseFloat(value) || 0`, so a
negative entry is kept as typed. -/
theorem C8_price_amended (st : AppState) (s : String) :
    initialState.newItem.price = some 0 ∧
    emptyNewItem.price = some 0 ∧
    (setNewItemPrice st s).newItem.price = some (priceFromInput s) ∧
    (parseFloat s = none → priceFromInput s = 0) ∧
    (∀ it, st.editingItem = some it →
      (setEditingPrice st s).editingItem
        = some { it with price := some (priceFromInput s) }) := by
  refine ⟨rfl, rfl, ?_, ?_, ?_⟩
  · simp [setNewItemPrice]
  · intro h
    simp [priceFromInput, h]
  · intro it hit
    simp [setEditingPrice, hit]

/-- Claim C8, witness: the unparsable entry `abc` stores price 0. -/
theorem C8_price_amended_witness :
    parseFloat "abc" = none ∧ priceFromInput "abc" = 0 :=
  ⟨by decide, (C8_price_amended initialState "abc").2.2.2.1 (by decide)⟩

/-- Claim C9: a failed update — network rejection, non-success status, or
JSON parse failure — leaves the in-progress edit target `editingItem`
unchanged, so the edit form stays open; `editingItem` is cleared to `none`
exactly on the success path, and there the clearing comes after the
refetch GET call. -/
theorem C9_editing_frame (st : AppState) (item : Item)
    (refetch : FetchResult) (h : idFalsy item.id = false) :
    (∀ m, (updateItem st item (.reject m) refetch).1.editingItem
        = st.editingItem) ∧
    (∀ r : HttpResponse, r.ok = false →
      (updateItem st item (.resp r) refetch).1.editingItem
        = st.editingItem) ∧
    (∀ r : HttpResponse, ∀ jm, r.ok = true → r.json = .error jm →
      (updateItem st item (.resp r) refetch).1.editingItem
        = st.editingItem) ∧
    (∀ r : HttpResponse, ∀ body, r.ok = true → r.json = .ok body →
      (updateItem st item (.resp r) refetch).1.editingItem = none ∧
      seqBefore (isMethodCall "GET") isSetEditingNone
        (updateItem st item (.resp r) refetch).2 = true) := by
  refine ⟨?_, ?_, ?_, ?_⟩
  · intro m
    simp [updateItem, h]
  · intro r hok
    simp [updateItem, h, hok]
  · intro r jm hok hj
    simp [updateItem, h, hok, hj]
  · intro r body hok hj
    constructor
    · simp [updateItem, h, hok, hj]
    · simp only [updateItem, h, hok, hj]
      simp only [Bool.false_eq_true, if_false, if_true]
      apply seqBefore_of_split
      · simp [List.any_append,
              fetch_has_get { st with loading := true } refetch]
      · simp [List.any_append, isSetEditingNone, isMethodCall,
              fetch_no_editing_event { st with loading := true } refetch]
      · simp [isSetEditingNone]

/-- Claim C9, witness: a concrete rejected update leaves the edit target in
place. -/
theorem C9_editing_frame_witness :
    idFalsy sampleItem.id = false ∧
    (updateItem wsEditState sampleItem (.reject "network down")
        (.resp resp200)).1.editingItem = wsEditState.editingItem :=
  ⟨rfl, (C9_editing_frame wsEditState sampleItem (.resp resp200) rfl).1
      "network down"⟩

/-- Claim C10: a failed create — network rejection or non-success status —
leaves the in-memory item list unchanged: the resulting state differs from
the starting one only in the error message (and the cleared loading flag),
and no GET refetch occurs; on a JSON parse failure the list is likewise
unchanged, and the refetch GET runs exactly on the success path. -/
theorem C10_create_failure_frame (st : AppState) (item : Item)
    (refetch : FetchResult) :
    (∀ m, (createItem st item (.reject m) refetch).1
        = { st with error := some m, loading := false } ∧
      (createItem st item (.reject m) refetch).2.any (isMethodCall "GET")
        = false) ∧
    (∀ r : HttpResponse, r.ok = false →
      (createItem st item (.resp r) refetch).1
        = { st with error := some (httpErrorMsg r.status),
                    loading := false } ∧
      (createItem st item (.resp r) refetch).2.any (isMethodCall "GET")
        = false) ∧
    (∀ r : HttpResponse, ∀ jm, r.ok = true → r.json = .error jm →
      (createItem st item (.resp r) refetch).1.items = st.items ∧
      (createItem st item (.resp r) refetch).2.any (isMethodCall "GET")
        = false) ∧
    (∀ r : HttpResponse, ∀ body, r.ok = true → r.json = .ok body →
      (createItem st item (.resp r) refetch).2.any (isMethodCall "GET")
        = true) := by
  refine ⟨?_, ?_, ?_, ?_⟩
  · intro m
    constructor <;>
      simp [createItem, isMethodCall,
            (by decide : ("POST" == "GET") = false)]
  · intro r hok
    constructor <;>
      simp [createItem, hok, isMethodCall,
            (by decide : ("POST" == "GET") = false)]
  · intro r jm hok hj
    constructor <;>
      simp [createItem, hok, hj, isMethodCall,
            (by decide : ("POST" == "GET") = false)]
  · intro r body hok hj
    simp [createItem, hok, hj, isMethodCall, List.any_append,
          (by decide : ("POST" == "GET") = false),
          fetch_has_get { st with loading := true } refetch]

/-- Claim C10, witness: a concrete 404 create leaves the list unchanged. -/
theorem C10_create_failure_frame_witness :
    resp404.ok = false ∧
    (createItem initialState sampleItem (.resp resp404)
        (.resp resp200)).1.items = initialState.items := by
  refine ⟨rfl, ?_⟩
  have h := ((C10_create_failure_frame initialState sampleItem
      (.resp resp200)).2.1 resp404 rfl).1
  rw [h]
